import Mathlib

/-
Verification of the marketpulse orchestration core against its specification.

Shallow embedding conventions:
- Timestamps are modelled at day resolution as integers (`Int`); the Python
  code only ever consumes timestamps through `(datetime.now() - t).days`,
  so an age is `now - t` in whole days.
- JSON metadata files are modelled as `Option` values: `none` means the file
  is absent or unreadable (the code treats both identically).
- Python dict-based records are modelled as structures whose fields carry the
  same names and defaults as the `dict.get(key, default)` accesses in source.
- Statuses and routing labels are plain strings, as in the Python source.
-/

namespace MarketPulse

/-! ## Version Ledger (src/forecasting_agent/forecaster.py, lines 536-619) -/

/-- One entry of a feature's version ledger: mirrors the JSON objects
`{"version": int, "created_at": iso, "status": str, "metrics"?: ...}`
written by `mark_version_status`.  `createdAt`/`updatedAt` are day-resolution
timestamps; `none` models a missing or unparsable field.  The metrics payload
is kept as an uninterpreted string. -/
structure VersionEntry where
  version : Nat
  createdAt : Option Int := none
  updatedAt : Option Int := none
  status : String
  metrics : Option String := none
deriving DecidableEq

/-- The per-feature ledger `{feature}_versions.json`:
`{"versions": [...], "active_version": int|null}`.
`load_version_metadata` yields `{"versions": [], "active_version": None}`
when the file is absent, i.e. `⟨[], none⟩`. -/
structure VersionMetadata where
  versions : List VersionEntry
  active_version : Option Nat
deriving DecidableEq

/-- Largest `version` field appearing in a list of ledger entries (0 for the
empty list); on nonempty lists this is Python's
`max(v["version"] for v in versions)`. -/
def maxVersionOf (es : List VersionEntry) : Nat :=
  es.foldl (fun m e => Nat.max m e.version) 0

/-- `get_next_version` (forecaster.py:560-565): 1 when the ledger has no
versions, otherwise the maximum existing version number plus 1. -/
def get_next_version (l : VersionMetadata) : Nat :=
  if l.versions.isEmpty then 1 else maxVersionOf l.versions + 1

/-- In-place update of an existing ledger entry performed by
`mark_version_status` when it finds an entry with the requested version:
the status is overwritten, `updated_at` is stamped, and metrics are
overwritten only when provided. -/
def updateEntry (e : VersionEntry) (status : String) (metrics : Option String)
    (now : Int) : VersionEntry :=
  { e with
    status := status
    updatedAt := some now
    metrics := match metrics with
      | some m => some m
      | none => e.metrics }

/-- Fresh ledger entry appended by `mark_version_status` when no entry with
the requested version exists. -/
def newEntry (version : Nat) (status : String) (metrics : Option String)
    (now : Int) : VersionEntry :=
  { version := version
    createdAt := some now
    updatedAt := none
    status := status
    metrics := metrics }

theorem newEntry_version (v : Nat) (st : String) (m : Option String)
    (now : Int) : (newEntry v st m now).version = v := rfl

/-- The versions-list part of `mark_version_status`: update the first entry
whose version matches, or append a new entry at the end (Python scans the
list with `break` on first match, then appends when nothing matched). -/
def markVersions : List VersionEntry → Nat → String → Option String → Int →
    List VersionEntry
  | [], v, st, m, now => [newEntry v st m now]
  | e :: rest, v, st, m, now =>
    if e.version = v then updateEntry e st m now :: rest
    else e :: markVersions rest v st m now

/-- `mark_version_status` (forecaster.py:590-619) as a pure ledger
transformer: updates-or-appends the version entry, and sets
`active_version := version` exactly when `status == "completed"`. -/
def mark_version_status (l : VersionMetadata) (version : Nat) (status : String)
    (metrics : Option String) (now : Int) : VersionMetadata :=
  { versions := markVersions l.versions version status metrics now
    active_version :=
      if status = "completed" then some version else l.active_version }

/-- The spec's Version Ledger invariant, as a decidable check:
`active_version`, if set, references some ledger entry with that version
number whose status is `"completed"`. -/
def activeInvB (l : VersionMetadata) : Bool :=
  match l.active_version with
  | none => true
  | some v => l.versions.any fun e => e.version == v && e.status == "completed"

theorem activeInvB_none (vs : List VersionEntry) :
    activeInvB ⟨vs, none⟩ = true := rfl

theorem activeInvB_some (vs : List VersionEntry) (v : Nat) :
    activeInvB ⟨vs, some v⟩ =
      vs.any fun e => e.version == v && e.status == "completed" := rfl

/-! ### Helper lemmas about `maxVersionOf` and `markVersions` -/

theorem foldl_max_ge (es : List VersionEntry) (acc : Nat) :
    acc ≤ es.foldl (fun m e => Nat.max m e.version) acc := by
  induction es generalizing acc with
  | nil => exact Nat.le_refl _
  | cons h t ih => exact Nat.le_trans (Nat.le_max_left _ _) (ih _)

theorem mem_le_foldl_max (e : VersionEntry) :
    ∀ (es : List VersionEntry) (acc : Nat), e ∈ es →
      e.version ≤ es.foldl (fun m x => Nat.max m x.version) acc := by
  intro es
  induction es with
  | nil => intro acc he; cases he
  | cons h t ih =>
    intro acc he
    cases he with
    | head => exact Nat.le_trans (Nat.le_max_right _ _) (foldl_max_ge t _)
    | tail _ hmem => exact ih _ hmem

theorem foldl_max_attained (es : List VersionEntry) (acc : Nat) :
    es.foldl (fun m x => Nat.max m x.version) acc = acc ∨
    ∃ e ∈ es, es.foldl (fun m x => Nat.max m x.version) acc = e.version := by
  induction es generalizing acc with
  | nil => exact Or.inl rfl
  | cons h t ih =>
    rcases ih (Nat.max acc h.version) with heq | ⟨e, he, heq⟩
    · rcases Nat.le_total acc h.version with hle | hge
      · refine Or.inr ⟨h, List.mem_cons_self _ _, ?_⟩
        rw [List.foldl_cons, heq]
        exact Nat.max_eq_right hle
      · refine Or.inl ?_
        rw [List.foldl_cons, heq]
        exact Nat.max_eq_left hge
    · exact Or.inr ⟨e, List.mem_cons_of_mem _ he, by rw [List.foldl_cons]; exact heq⟩

theorem mem_le_maxVersionOf (es : List VersionEntry) (e : VersionEntry)
    (he : e ∈ es) : e.version ≤ maxVersionOf es :=
  mem_le_foldl_max e es 0 he

theorem maxVersionOf_attained (es : List VersionEntry) (hne : es ≠ []) :
    ∃ e ∈ es, maxVersionOf es = e.version := by
  rcases foldl_max_attained es 0 with heq | hex
  · cases es with
    | nil => exact absurd rfl hne
    | cons h t =>
      refine ⟨h, List.mem_cons_self _ _, ?_⟩
      have hle : h.version ≤ maxVersionOf (h :: t) :=
        mem_le_maxVersionOf _ _ (List.mem_cons_self _ _)
      have : maxVersionOf (h :: t) = 0 := heq
      omega
  · exact hex

theorem markVersions_ne_nil (es : List VersionEntry) (v : Nat) (st : String)
    (m : Option String) (now : Int) : markVersions es v st m now ≠ [] := by
  cases es with
  | nil => simp [markVersions]
  | cons h t =>
    unfold markVersions
    split <;> simp

theorem markVersions_version_mem (v : Nat) (st : String) (m : Option String)
    (now : Int) (e : VersionEntry) :
    ∀ es : List VersionEntry, e ∈ es →
      ∃ e' ∈ markVersions es v st m now, e'.version = e.version := by
  intro es
  induction es with
  | nil => intro he; cases he
  | cons h t ih =>
    intro he
    unfold markVersions
    by_cases hv : h.version = v
    · rw [if_pos hv]
      cases he with
      | head => exact ⟨updateEntry e st m now, List.mem_cons_self _ _, rfl⟩
      | tail _ hmem => exact ⟨e, List.mem_cons_of_mem _ hmem, rfl⟩
    · rw [if_neg hv]
      cases he with
      | head => exact ⟨e, List.mem_cons_self _ _, rfl⟩
      | tail _ hmem =>
        rcases ih hmem with ⟨e', he', hveq⟩
        exact ⟨e', List.mem_cons_of_mem _ he', hveq⟩

theorem markVersions_mem_of_ne (v : Nat) (st : String) (m : Option String)
    (now : Int) (e : VersionEntry) (hne : e.version ≠ v) :
    ∀ es : List VersionEntry, e ∈ es → e ∈ markVersions es v st m now := by
  intro es
  induction es with
  | nil => intro he; cases he
  | cons h t ih =>
    intro he
    unfold markVersions
    by_cases hv : h.version = v
    · rw [if_pos hv]
      cases he with
      | head => exact absurd hv hne
      | tail _ hmem => exact List.mem_cons_of_mem _ hmem
    · rw [if_neg hv]
      cases he with
      | head => exact List.mem_cons_self _ _
      | tail _ hmem => exact List.mem_cons_of_mem _ (ih hmem)

theorem markVersions_marked_mem (es : List VersionEntry) (v : Nat) (st : String)
    (m : Option String) (now : Int) :
    ∃ e' ∈ markVersions es v st m now, e'.version = v ∧ e'.status = st := by
  induction es with
  | nil => exact ⟨newEntry v st m now, List.mem_cons_self _ _, rfl, rfl⟩
  | cons h t ih =>
    unfold markVersions
    by_cases hv : h.version = v
    · rw [if_pos hv]
      exact ⟨updateEntry h st m now, List.mem_cons_self _ _, hv, rfl⟩
    · rw [if_neg hv]
      rcases ih with ⟨e', he', hprop⟩
      exact ⟨e', List.mem_cons_of_mem _ he', hprop⟩

theorem markVersions_no_match (v : Nat) (st : String) (m : Option String)
    (now : Int) :
    ∀ es : List VersionEntry, (∀ e ∈ es, e.version ≠ v) →
      markVersions es v st m now = es ++ [newEntry v st m now] := by
  intro es
  induction es with
  | nil => intro _; rfl
  | cons hd t ih =>
    intro h
    unfold markVersions
    rw [if_neg (h hd (List.mem_cons_self _ _))]
    rw [ih fun e he => h e (List.mem_cons_of_mem _ he)]
    rfl

theorem maxVersionOf_append (es : List VersionEntry) (e : VersionEntry) :
    maxVersionOf (es ++ [e]) = Nat.max (maxVersionOf es) e.version := by
  unfold maxVersionOf
  rw [List.foldl_append]
  rfl

/-! ### Claim C1 -/

/-- C1 (as stated) is false on the code: `mark_version_status` never clears
`active_version` when the version it references is subsequently re-marked
with a non-completed status.  Marking version 1 completed and then marking
the same version failed leaves `active_version = 1` pointing at a ledger
entry whose status is `"failed"`, so the invariant does not hold after that
call. -/
theorem C1_counterexample :
    activeInvB
      (mark_version_status
        (mark_version_status ⟨[], none⟩ 1 "completed" none 0)
        1 "failed" none 1) = false := by
  decide

/-- C1 (amended): `mark_version_status` sets `active_version` to the given
version exactly when called with status `"completed"`; and the Version Ledger
invariant (`active_version`, if set, references an entry with status
`"completed"`) is preserved by every call that is not a downgrade of the
currently active version, i.e. whenever the call's status is `"completed"` or
its version differs from the current `active_version`. -/
theorem C1_active_version_invariant (l : VersionMetadata) (v : Nat)
    (st : String) (m : Option String) (now : Int)
    (hinv : activeInvB l = true)
    (h : st = "completed" ∨ l.active_version ≠ some v) :
    activeInvB (mark_version_status l v st m now) = true ∧
    (mark_version_status l v st m now).active_version =
      (if st = "completed" then some v else l.active_version) := by
  obtain ⟨vs, av⟩ := l
  refine ⟨?_, rfl⟩
  by_cases hst : st = "completed"
  · subst hst
    rcases markVersions_marked_mem vs v "completed" m now with ⟨e', he', hv, hs⟩
    have hrec : mark_version_status ⟨vs, av⟩ v "completed" m now =
        ⟨markVersions vs v "completed" m now, some v⟩ := by
      simp [mark_version_status]
    rw [hrec, activeInvB_some, List.any_eq_true]
    exact ⟨e', he', by simp [hv, hs]⟩
  · have hne : av ≠ some v := by
      rcases h with hcomp | hne
      · exact absurd hcomp hst
      · exact hne
    have hrec : mark_version_status ⟨vs, av⟩ v st m now =
        ⟨markVersions vs v st m now, av⟩ := by
      simp [mark_version_status, hst]
    rw [hrec]
    cases av with
    | none => exact activeInvB_none _
    | some a =>
      rw [activeInvB_some] at hinv ⊢
      rw [List.any_eq_true] at hinv ⊢
      rcases hinv with ⟨e, he, hprop⟩
      rw [Bool.and_eq_true, beq_iff_eq, beq_iff_eq] at hprop
      have hva : e.version ≠ v := by
        rw [hprop.1]
        intro hcontra
        exact hne (by rw [hcontra])
      exact ⟨e, markVersions_mem_of_ne v st m now e hva vs he,
        by simp [hprop.1, hprop.2]⟩

/-- Witness for C1: a concrete ledger and call satisfying the hypotheses of
`C1_active_version_invariant`. -/
theorem C1_active_version_invariant_witness :
    activeInvB (mark_version_status ⟨[], none⟩ 1 "training" none 0) = true ∧
    (mark_version_status ⟨[], none⟩ 1 "training" none 0).active_version =
      (if "training" = "completed" then some 1
       else (⟨[], none⟩ : VersionMetadata).active_version) :=
  C1_active_version_invariant ⟨[], none⟩ 1 "training" none 0 (by decide)
    (Or.inr (by decide))

/-! ### Claim C3 -/

/-- C3: `get_next_version` is 1 on an empty ledger, otherwise the attained
maximum of the existing version numbers plus 1; it strictly exceeds every
version number stored in the ledger; `mark_version_status` (including
`"failed"` and `"training"` marks) never removes or renumbers an entry;
`get_next_version` never decreases across a mark; and marking the handed-out
version bumps `get_next_version` by exactly one — so handed-out numbers are
strictly increasing and never reused. -/
theorem C3_next_version (l : VersionMetadata) (st : String) (m : Option String)
    (now : Int) :
    (l.versions = [] → get_next_version l = 1) ∧
    (∀ e ∈ l.versions, e.version < get_next_version l) ∧
    (l.versions ≠ [] → ∃ e ∈ l.versions, e.version + 1 = get_next_version l) ∧
    (∀ v, ∀ e ∈ l.versions,
      ∃ e' ∈ (mark_version_status l v st m now).versions,
        e'.version = e.version) ∧
    (∀ v, get_next_version l ≤
      get_next_version (mark_version_status l v st m now)) ∧
    (get_next_version (mark_version_status l (get_next_version l) st m now) =
      get_next_version l + 1) := by
  refine ⟨?_, ?_, ?_, ?_, ?_, ?_⟩
  · intro hnil
    simp [get_next_version, hnil]
  · intro e he
    have hne : l.versions ≠ [] := by
      intro hcontra
      rw [hcontra] at he
      cases he
    have hempty : l.versions.isEmpty = false := by
      cases hl : l.versions with
      | nil => exact absurd hl hne
      | cons a b => rfl
    rw [get_next_version, if_neg (by rw [hempty]; exact Bool.false_ne_true)]
    exact Nat.lt_succ_of_le (mem_le_maxVersionOf _ _ he)
  · intro hne
    have hempty : l.versions.isEmpty = false := by
      cases hl : l.versions with
      | nil => exact absurd hl hne
      | cons a b => rfl
    rcases maxVersionOf_attained l.versions hne with ⟨e, he, heq⟩
    refine ⟨e, he, ?_⟩
    rw [get_next_version, if_neg (by rw [hempty]; exact Bool.false_ne_true), heq]
  · intro v e he
    exact markVersions_version_mem v st m now e l.versions he
  · intro v
    cases hl : l.versions with
    | nil =>
      have h1 : get_next_version l = 1 := by simp [get_next_version, hl]
      have hmark : (mark_version_status l v st m now).versions =
          [newEntry v st m now] := by
        simp [mark_version_status, hl, markVersions]
      rw [h1, get_next_version, hmark]
      simp
    | cons a b =>
      have hne : l.versions ≠ [] := by rw [hl]; exact List.cons_ne_nil a b
      have hempty : l.versions.isEmpty = false := by rw [hl]; rfl
      have hempty2 : (mark_version_status l v st m now).versions.isEmpty
          = false := by
        have hnil := markVersions_ne_nil l.versions v st m now
        cases hm : (mark_version_status l v st m now).versions with
        | nil =>
          exact absurd (by simpa [mark_version_status] using hm) hnil
        | cons c d => rfl
      rw [get_next_version, if_neg (by rw [hempty]; exact Bool.false_ne_true),
        get_next_version, if_neg (by rw [hempty2]; exact Bool.false_ne_true)]
      rcases maxVersionOf_attained l.versions hne with ⟨e, he, heq⟩
      rcases markVersions_version_mem v st m now e l.versions he with
        ⟨e', he', hveq⟩
      have hmax : maxVersionOf l.versions ≤
          maxVersionOf (mark_version_status l v st m now).versions := by
        rw [heq, ← hveq]
        exact mem_le_maxVersionOf _ _ he'
      omega
  · cases hl : l.versions with
    | nil =>
      have h1 : get_next_version l = 1 := by simp [get_next_version, hl]
      rw [h1]
      have hmark : (mark_version_status l 1 st m now).versions =
          [newEntry 1 st m now] := by
        simp [mark_version_status, hl, markVersions]
      rw [get_next_version, hmark]
      simp [maxVersionOf, newEntry]
    | cons a b =>
      have hne : l.versions ≠ [] := by rw [hl]; exact List.cons_ne_nil a b
      have hempty : l.versions.isEmpty = false := by rw [hl]; rfl
      have hnext : get_next_version l = maxVersionOf l.versions + 1 := by
        rw [get_next_version, if_neg (by rw [hempty]; exact Bool.false_ne_true)]
      have hnomatch : ∀ e ∈ l.versions, e.version ≠ get_next_version l := by
        intro e he
        have := mem_le_maxVersionOf l.versions e he
        omega
      have happ : (mark_version_status l (get_next_version l) st m now).versions
          = l.versions ++ [newEntry (get_next_version l) st m now] := by
        simp only [mark_version_status]
        exact markVersions_no_match _ _ _ _ l.versions hnomatch
      have hemptyapp : (l.versions ++
          [newEntry (get_next_version l) st m now]).isEmpty = false := by
        rw [hl]; rfl
      rw [get_next_version, happ,
        if_neg (by rw [hemptyapp]; exact Bool.false_ne_true)]
      rw [maxVersionOf_append, newEntry_version, hnext]
      exact congrArg (· + 1) (Nat.max_eq_right (by omega))

/-- Witness for C3: the theorem applied to a concrete one-entry ledger. -/
theorem C3_next_version_witness :
    (∀ e ∈ ([⟨2, some 0, none, "failed", none⟩] : List VersionEntry),
      e.version < get_next_version ⟨[⟨2, some 0, none, "failed", none⟩], none⟩) ∧
    get_next_version
      (mark_version_status ⟨[⟨2, some 0, none, "failed", none⟩], none⟩
        (get_next_version ⟨[⟨2, some 0, none, "failed", none⟩], none⟩)
        "training" none 5) =
      get_next_version ⟨[⟨2, some 0, none, "failed", none⟩], none⟩ + 1 := by
  have h := C3_next_version ⟨[⟨2, some 0, none, "failed", none⟩], none⟩
    "training" none 5
  exact ⟨h.2.1, h.2.2.2.2.2⟩

/-! ## Staleness Checker (src/orchestrator/intelligent_model_checker.py) -/

/-- `get_retraining_threshold` (lines 51-72): per-cadence staleness threshold
in days, defaulting to 90 for unknown cadences. -/
def get_retraining_threshold (cadence : String) : Int :=
  if cadence = "daily" then 90
  else if cadence = "weekly" then 180
  else if cadence = "monthly" then 365
  else 90

/-- A Staleness Verdict as returned by `check_feature_model_status`
(the `exists` key of the Python dict is spelled `exists_`). -/
structure StalenessVerdict where
  exists_ : Bool
  age_days : Option Int
  needs_training : Bool
  reason : String
  missing_files : List String
deriving DecidableEq

/-- The filesystem/ledger state read by `check_feature_model_status` for one
feature: the parsed `{feature}_versions.json` (`none` = absent or
unreadable), the versions for which the `nf_bundle_v{v}` directory exists,
the versions for which the `{feature}_ensemble_v{v}.json` file exists, the
mtime of each ensemble file, and the current day. -/
structure FeatureEnv where
  metadata : Option VersionMetadata
  nfBundleVersions : List Nat
  ensembleVersions : List Nat
  ensembleMtime : Nat → Int
  now : Int

/-- Resolution of the version to inspect
(intelligent_model_checker.py:124-137): the ledger's `active_version` when
set, else the highest completed version, else none. -/
def resolveActiveVersion (md : VersionMetadata) : Option Nat :=
  match md.active_version with
  | some v => some v
  | none =>
    let completed := md.versions.filter fun e => e.status == "completed"
    if completed.isEmpty then none else some (maxVersionOf completed)

/-- The `created_at` lookup loop (lines 161-179): the first ledger entry with
a matching version number and a parsable timestamp wins. -/
def findCreatedAt : List VersionEntry → Nat → Option Int
  | [], _ => none
  | e :: rest, v =>
    if e.version = v then
      match e.createdAt with
      | some t => some t
      | none => findCreatedAt rest v
    else findCreatedAt rest v

/-- Age in days of the resolved version (lines 159-185): from the ledger's
`created_at` when available, else from the ensemble file's mtime. -/
def featureAge (env : FeatureEnv) (md : VersionMetadata) (active : Nat) : Int :=
  match findCreatedAt md.versions active with
  | some t => env.now - t
  | none => env.now - env.ensembleMtime active

/-- `check_feature_model_status` (intelligent_model_checker.py:75-193). -/
def check_feature_model_status (env : FeatureEnv)
    (feature_name cadence : String) : StalenessVerdict :=
  match env.metadata with
  | none =>
    { exists_ := false, age_days := none, needs_training := true,
      reason := "Version metadata does not exist",
      missing_files := ["version_metadata"] }
  | some metadata =>
    match resolveActiveVersion metadata with
    | none =>
      { exists_ := false, age_days := none, needs_training := true,
        reason := "No active or completed version found",
        missing_files := ["completed_version"] }
    | some active =>
      let missing :=
        (if env.nfBundleVersions.contains active then []
         else [s!"nf_bundle_v{active}"]) ++
        (if env.ensembleVersions.contains active then []
         else [s!"{feature_name}_ensemble_v{active}.json"])
      if missing.isEmpty then
        let threshold := get_retraining_threshold cadence
        let age := featureAge env metadata active
        { exists_ := true, age_days := some age,
          needs_training := decide (age > threshold),
          reason := s!"{age} days old (threshold: {threshold} days for {cadence})",
          missing_files := [] }
      else
        let joined := String.intercalate ", " missing
        { exists_ := false, age_days := none, needs_training := true,
          reason := s!"Missing required files: {joined}",
          missing_files := missing }

/-! ### Claim C5 -/

/-- Ledger with a completed version 1 but `active_version` unset. -/
def c5Metadata : VersionMetadata :=
  ⟨[{ version := 1, createdAt := some 0, status := "completed" }], none⟩

/-- Environment where the ledger's `active_version` is unset but a completed
version with all its files exists. -/
def c5Env : FeatureEnv :=
  { metadata := some c5Metadata
    nfBundleVersions := [1]
    ensembleVersions := [1]
    ensembleMtime := fun _ => 0
    now := 5 }

/-- C5 (as stated) is false on the code: when `active_version` is unset,
`check_feature_model_status` does not report the artifact missing — it falls
back to the highest completed version (lines 126-129) and, if that version's
files are present, returns `exists=true` with a real age. -/
theorem C5_counterexample :
    c5Metadata.active_version = none ∧
    (check_feature_model_status c5Env "VIX" "daily").exists_ = true ∧
    (check_feature_model_status c5Env "VIX" "daily").age_days = some 5 ∧
    (check_feature_model_status c5Env "VIX" "daily").needs_training = false := by
  decide

/-- C5 (amended): whenever the ledger file is absent/unreadable, or no
version resolves (`active_version` unset and no completed version — when
`active_version` is unset the code first falls back to the highest
completed version), or a constituent file (`nf_bundle_v{v}` or the
ensemble weights) of the resolved version is missing, the verdict is
`exists=false, needs_training=true, age_days=null`.  A partially-written
version is thus treated as missing, never as existing-but-stale. -/
theorem C5_missing_semantics (env : FeatureEnv) (feature_name cadence : String)
    (h : env.metadata = none ∨
      (∃ md, env.metadata = some md ∧ resolveActiveVersion md = none) ∨
      (∃ md a, env.metadata = some md ∧ resolveActiveVersion md = some a ∧
        (env.nfBundleVersions.contains a = false ∨
         env.ensembleVersions.contains a = false))) :
    (check_feature_model_status env feature_name cadence).exists_ = false ∧
    (check_feature_model_status env feature_name cadence).needs_training = true ∧
    (check_feature_model_status env feature_name cadence).age_days = none := by
  rcases h with h0 | ⟨md, hmd, hres⟩ | ⟨md, a, hmd, hres, hfiles⟩
  · simp [check_feature_model_status, h0]
  · simp [check_feature_model_status, hmd, hres]
  · rcases hfiles with hnf | hens
    · have hnf' : a ∉ env.nfBundleVersions := by simpa using hnf
      simp [check_feature_model_status, hmd, hres, hnf']
    · have hens' : a ∉ env.ensembleVersions := by simpa using hens
      by_cases hnf2 : a ∈ env.nfBundleVersions <;>
        simp [check_feature_model_status, hmd, hres, hens', hnf2]

/-- Environment whose ledger file is absent. -/
def c5WitnessEnv : FeatureEnv :=
  { metadata := none, nfBundleVersions := [], ensembleVersions := [],
    ensembleMtime := fun _ => 0, now := 0 }

/-- Witness for C5 (amended): applied where the ledger file is absent. -/
theorem C5_missing_semantics_witness :
    (check_feature_model_status c5WitnessEnv "VIX" "daily").exists_ = false ∧
    (check_feature_model_status c5WitnessEnv "VIX" "daily").needs_training
      = true ∧
    (check_feature_model_status c5WitnessEnv "VIX" "daily").age_days = none :=
  C5_missing_semantics c5WitnessEnv "VIX" "daily" (Or.inl rfl)

/-! ### Claim C6 -/

/-- C6: when a version resolves and all its constituent files are present,
the verdict reports `exists=true`, the computed age, and
`needs_training = (age_days > threshold(cadence))` — strictly greater, so an
artifact aged exactly the threshold is still fresh. -/
theorem C6_staleness_boundary (env : FeatureEnv) (feature_name cadence : String)
    (md : VersionMetadata) (a : Nat)
    (hmd : env.metadata = some md)
    (hres : resolveActiveVersion md = some a)
    (hnf : env.nfBundleVersions.contains a = true)
    (hens : env.ensembleVersions.contains a = true) :
    (check_feature_model_status env feature_name cadence).exists_ = true ∧
    (check_feature_model_status env feature_name cadence).age_days =
      some (featureAge env md a) ∧
    ((check_feature_model_status env feature_name cadence).needs_training
        = true ↔
      featureAge env md a > get_retraining_threshold cadence) := by
  have hnf' : a ∈ env.nfBundleVersions := by simpa using hnf
  have hens' : a ∈ env.ensembleVersions := by simpa using hens
  simp [check_feature_model_status, hmd, hres, hnf', hens']

/-- Single-completed-version ledger created at day 0. -/
def c6Metadata : VersionMetadata :=
  ⟨[{ version := 1, createdAt := some 0, status := "completed" }], some 1⟩

/-- Environment with all files of the active version present, observed at
day `now`, so the age is exactly `now`. -/
def c6Env (now : Int) : FeatureEnv :=
  { metadata := some c6Metadata
    nfBundleVersions := [1]
    ensembleVersions := [1]
    ensembleMtime := fun _ => 0
    now := now }

/-- Witness for C6 at the daily threshold T = 90: needs_training is true at
age T+1 and false at ages T-1 and T. -/
theorem C6_staleness_boundary_witness :
    (check_feature_model_status (c6Env 91) "VIX" "daily").needs_training
      = true ∧
    (check_feature_model_status (c6Env 89) "VIX" "daily").needs_training
      = false ∧
    (check_feature_model_status (c6Env 90) "VIX" "daily").needs_training
      = false := by
  refine ⟨?_, by decide, by decide⟩
  exact (C6_staleness_boundary (c6Env 91) "VIX" "daily" c6Metadata 1 rfl
    (by decide) (by decide) (by decide)).2.2.mpr (by decide)

/-! ## Core model status (intelligent_model_checker.py, lines 228-302) -/

/-- `get_core_model_threshold` (lines 228-241): 30 days. -/
def get_core_model_threshold : Int := 30

/-- Filesystem state read by `check_core_models_status`: mtimes of
`hmm_model.joblib`, `regime_classifier.joblib` and
`cluster_assignments.parquet` (`none` = file absent), and the current day. -/
structure CoreEnv where
  hmmMtime : Option Int
  classifierMtime : Option Int
  clusterMtime : Option Int
  now : Int
deriving DecidableEq

/-- The dict returned by `check_core_models_status`. -/
structure CoreStatus where
  hmm_exists : Bool
  classifier_exists : Bool
  cluster_exists : Bool
  hmm_age_days : Option Int
  classifier_age_days : Option Int
  age_days : Option Int
  threshold_days : Int
  needs_training : Bool
deriving DecidableEq

/-- `check_core_models_status` (lines 244-302): existence of the three core
files, per-file ages, the combined age (the *older* of HMM and classifier —
the cluster file has no age), and
`needs_training = any-missing or age_days > 30`. -/
def check_core_models_status (env : CoreEnv) : CoreStatus :=
  let hmm_exists := env.hmmMtime.isSome
  let classifier_exists := env.classifierMtime.isSome
  let cluster_exists := env.clusterMtime.isSome
  let hmm_age_days := env.hmmMtime.map fun t => env.now - t
  let classifier_age_days := env.classifierMtime.map fun t => env.now - t
  let age_days :=
    match hmm_age_days, classifier_age_days with
    | some a, some b => some (max a b)
    | some a, none => some a
    | none, some b => some b
    | none, none => none
  let threshold := get_core_model_threshold
  let base := !(hmm_exists && classifier_exists && cluster_exists)
  let needs_training :=
    match age_days with
    | some a => base || decide (a > threshold)
    | none => base
  { hmm_exists := hmm_exists
    classifier_exists := classifier_exists
    cluster_exists := cluster_exists
    hmm_age_days := hmm_age_days
    classifier_age_days := classifier_age_days
    age_days := age_days
    threshold_days := threshold
    needs_training := needs_training }

/-! ### Claim C10 -/

/-- C10: when both the HMM file and the classifier file exist, `age_days` is
the maximum (older) of their two ages; the cluster-assignments file's mtime
never influences the result (only its existence does); and `needs_training`
holds iff one of the three core files is missing or `age_days` exceeds the
30-day core threshold. -/
theorem C10_core_status (env : CoreEnv) :
    (∀ th tc, env.hmmMtime = some th → env.classifierMtime = some tc →
      (check_core_models_status env).age_days =
        some (max (env.now - th) (env.now - tc))) ∧
    (∀ t t',
      check_core_models_status { env with clusterMtime := some t } =
      check_core_models_status { env with clusterMtime := some t' }) ∧
    ((check_core_models_status env).needs_training = true ↔
      (env.hmmMtime = none ∨ env.classifierMtime = none ∨
       env.clusterMtime = none ∨
       ∃ a, (check_core_models_status env).age_days = some a ∧
         a > get_core_model_threshold)) := by
  obtain ⟨hm, cm, clm, now⟩ := env
  refine ⟨?_, ?_, ?_⟩
  · intro th tc hth htc
    cases hth
    cases htc
    simp [check_core_models_status]
  · intro t t'
    cases hm <;> cases cm <;>
      simp [check_core_models_status, get_core_model_threshold]
  · cases hm <;> cases cm <;> cases clm <;>
      simp [check_core_models_status, get_core_model_threshold]

/-- Witness for C10: both files present and 40 days old at the oldest;
needs_training holds because the 30-day threshold is exceeded. -/
theorem C10_core_status_witness :
    (check_core_models_status ⟨some 60, some 80, some 0, 100⟩).age_days =
      some (max (100 - 60) ((100 : Int) - 80)) ∧
    (check_core_models_status ⟨some 60, some 80, some 0, 100⟩).needs_training
      = true := by
  have h := C10_core_status ⟨some 60, some 80, some 0, 100⟩
  exact ⟨h.1 60 80 rfl rfl,
    h.2.2.mpr (Or.inr (Or.inr (Or.inr ⟨40, by decide, by decide⟩)))⟩

/-! ## Recommendation Engine (intelligent_model_checker.py, lines 196-226
and 305-371) -/

/-- Whole-system environment for the Recommendation Engine: the feature →
cadence map built by `get_feature_cadence_map` from the config, the per-
feature filesystem state, and the core-model filesystem state. -/
structure SystemEnv where
  featureMap : List (String × String)
  featureEnv : String → FeatureEnv
  core : CoreEnv

/-- `check_all_features` (lines 196-210): one Staleness Verdict per
configured feature. -/
def check_all_features (env : SystemEnv) : List (String × StalenessVerdict) :=
  env.featureMap.map fun p =>
    (p.1, check_feature_model_status (env.featureEnv p.1) p.1 p.2)

/-- `get_features_needing_training` (lines 213-225): the features whose
verdict has `needs_training` (missing or stale). -/
def get_features_needing_training (env : SystemEnv) : List String :=
  ((check_all_features env).filter fun p => p.2.needs_training).map Prod.fst

/-- The dict returned by `get_intelligent_recommendation`; the nested
`details` dict is modelled by its three feature lists (the core status is
recoverable from the environment). -/
structure Recommendation where
  workflow : String
  features_to_train : List String
  retrain_core : Bool
  reason : String
  missing_features : List String
  stale_features : List String
  fresh_features : List String
deriving DecidableEq

/-- `get_intelligent_recommendation` (lines 305-371): first-match decision —
core stale ⇒ `train` (targets = only the features that themselves need
training), else no feature needs training ⇒ `inference`, else
`partial_train`. -/
def get_intelligent_recommendation (env : SystemEnv) : Recommendation :=
  let core_status := check_core_models_status env.core
  let features_status := check_all_features env
  let ftt := get_features_needing_training env
  let missing := (features_status.filter fun p => !p.2.exists_).map Prod.fst
  let stale := (features_status.filter fun p =>
    p.2.exists_ && p.2.needs_training).map Prod.fst
  let fresh := (features_status.filter fun p =>
    p.2.exists_ && !p.2.needs_training).map Prod.fst
  if core_status.needs_training then
    let n := ftt.length
    { workflow := "train", features_to_train := ftt, retrain_core := true,
      reason := s!"Core models (HMM/classifier) missing or stale + {n} features need training",
      missing_features := missing, stale_features := stale,
      fresh_features := fresh }
  else if ftt.isEmpty then
    let n := features_status.length
    { workflow := "inference", features_to_train := [], retrain_core := false,
      reason := s!"All {n} features are fresh and ready",
      missing_features := missing, stale_features := stale,
      fresh_features := fresh }
  else
    let n := ftt.length
    let nm := missing.length
    let ns := stale.length
    { workflow := "partial_train", features_to_train := ftt,
      retrain_core := false,
      reason := s!"{n} features need training ({nm} missing, {ns} stale)",
      missing_features := missing, stale_features := stale,
      fresh_features := fresh }

theorem mem_features_needing_training (env : SystemEnv) (f : String) :
    f ∈ get_features_needing_training env ↔
      ∃ c, (f, c) ∈ env.featureMap ∧
        (check_feature_model_status (env.featureEnv f) f c).needs_training
          = true := by
  constructor
  · intro hf
    rw [get_features_needing_training, List.mem_map] at hf
    rcases hf with ⟨q, hq, hfst⟩
    rw [List.mem_filter] at hq
    rcases hq with ⟨hqmem, hneeds⟩
    rw [check_all_features, List.mem_map] at hqmem
    rcases hqmem with ⟨p, hpmem, hpeq⟩
    have hp1 : p.1 = f := by
      rw [← hfst, ← hpeq]
    refine ⟨p.2, ?_, ?_⟩
    · rw [← hp1]
      exact hpmem
    · rw [← hpeq] at hneeds
      rw [← hp1]
      exact hneeds
  · rintro ⟨c, hmem, hneeds⟩
    rw [get_features_needing_training, List.mem_map]
    refine ⟨(f, check_feature_model_status (env.featureEnv f) f c), ?_, rfl⟩
    rw [List.mem_filter]
    refine ⟨?_, hneeds⟩
    rw [check_all_features, List.mem_map]
    exact ⟨(f, c), hmem, rfl⟩

theorem check_not_exists_needs_training (env : FeatureEnv) (fn cad : String) :
    (check_feature_model_status env fn cad).exists_ = false →
    (check_feature_model_status env fn cad).needs_training = true := by
  cases hmd : env.metadata with
  | none => intro _; simp [check_feature_model_status, hmd]
  | some md =>
    cases hres : resolveActiveVersion md with
    | none => intro _; simp [check_feature_model_status, hmd, hres]
    | some a =>
      by_cases hnf : a ∈ env.nfBundleVersions <;>
        by_cases hens : a ∈ env.ensembleVersions <;>
          simp [check_feature_model_status, hmd, hres, hnf, hens]

/-! ### Claim C2 -/

/-- C2: the Recommendation Engine's first-match decision order.  If the core
verdict needs training, the workflow is `train` with `retrain_core` and the
targets are exactly the features whose own verdict needs training (a fresh
feature is never dragged in by core staleness); else if no feature needs
training the workflow is `inference` with empty targets; else the workflow
is `partial_train` with exactly the needy features and no core retrain.  The
final conjunct records that a missing feature always needs training, so
"needs training" coincides with "stale or missing". -/
theorem C2_recommendation (env : SystemEnv) :
    ((check_core_models_status env.core).needs_training = true →
      (get_intelligent_recommendation env).workflow = "train" ∧
      (get_intelligent_recommendation env).retrain_core = true ∧
      (∀ f, f ∈ (get_intelligent_recommendation env).features_to_train ↔
        ∃ c, (f, c) ∈ env.featureMap ∧
          (check_feature_model_status (env.featureEnv f) f c).needs_training
            = true)) ∧
    ((check_core_models_status env.core).needs_training = false →
      get_features_needing_training env = [] →
      (get_intelligent_recommendation env).workflow = "inference" ∧
      (get_intelligent_recommendation env).features_to_train = [] ∧
      (get_intelligent_recommendation env).retrain_core = false) ∧
    ((check_core_models_status env.core).needs_training = false →
      get_features_needing_training env ≠ [] →
      (get_intelligent_recommendation env).workflow = "partial_train" ∧
      (get_intelligent_recommendation env).retrain_core = false ∧
      (∀ f, f ∈ (get_intelligent_recommendation env).features_to_train ↔
        ∃ c, (f, c) ∈ env.featureMap ∧
          (check_feature_model_status (env.featureEnv f) f c).needs_training
            = true)) ∧
    (∀ envF fn cad, (check_feature_model_status envF fn cad).exists_ = false →
      (check_feature_model_status envF fn cad).needs_training = true) := by
  refine ⟨?_, ?_, ?_, check_not_exists_needs_training⟩
  · intro hcore
    have hft : (get_intelligent_recommendation env).features_to_train =
        get_features_needing_training env := by
      simp [get_intelligent_recommendation, hcore]
    refine ⟨by simp [get_intelligent_recommendation, hcore],
      by simp [get_intelligent_recommendation, hcore], ?_⟩
    intro f
    rw [hft]
    exact mem_features_needing_training env f
  · intro hcore hftt
    have hempty : (get_features_needing_training env).isEmpty = true := by
      rw [hftt]; rfl
    refine ⟨?_, ?_, ?_⟩ <;>
      simp [get_intelligent_recommendation, hcore, hempty]
  · intro hcore hftt
    have hempty : (get_features_needing_training env).isEmpty = false := by
      cases hc : get_features_needing_training env with
      | nil => exact absurd hc hftt
      | cons a b => rfl
    have hft : (get_intelligent_recommendation env).features_to_train =
        get_features_needing_training env := by
      simp [get_intelligent_recommendation, hcore, hempty]
    refine ⟨by simp [get_intelligent_recommendation, hcore, hempty],
      by simp [get_intelligent_recommendation, hcore, hempty], ?_⟩
    intro f
    rw [hft]
    exact mem_features_needing_training env f

/-- Feature environment of a stale feature: active version 1 created at day
0, all files present, observed at day 100 (age 100 > 90). -/
def c2EnvStale : FeatureEnv :=
  { metadata := some ⟨[⟨1, some 0, none, "completed", none⟩], some 1⟩
    nfBundleVersions := [1], ensembleVersions := [1]
    ensembleMtime := fun _ => 0, now := 100 }

/-- Feature environment of a fresh feature: active version 1 created at day
99, all files present, observed at day 100 (age 1 ≤ 90). -/
def c2EnvFresh : FeatureEnv :=
  { metadata := some ⟨[⟨1, some 99, none, "completed", none⟩], some 1⟩
    nfBundleVersions := [1], ensembleVersions := [1]
    ensembleMtime := fun _ => 0, now := 100 }

/-- System with a missing HMM model (core stale), feature A stale and
feature B fresh. -/
def c2System : SystemEnv :=
  { featureMap := [("A", "daily"), ("B", "daily")]
    featureEnv := fun f => if f = "A" then c2EnvStale else c2EnvFresh
    core := ⟨none, some 0, some 0, 100⟩ }

/-- Witness for C2: on `c2System` the first branch fires; the cascade
suppression is visible in the computed targets `["A"]` (B is fresh and not
forced by core staleness). -/
theorem C2_recommendation_witness :
    (get_intelligent_recommendation c2System).workflow = "train" ∧
    (get_intelligent_recommendation c2System).retrain_core = true ∧
    (get_intelligent_recommendation c2System).features_to_train = ["A"] := by
  have h := (C2_recommendation c2System).1 (by decide)
  exact ⟨h.1, h.2.1, by decide⟩

/-! ## Incremental Trainer Loop (src/cloud_run/incremental_trainer.py) -/

/-- Environment of `run_incremental_training`: for each feature, the
committed repo content of `{feature}_version_metadata.json` (`none` = file
absent or unreadable), and the success of `train_single_feature` (the
outcome of the training collaborator).  Push/commit side effects are not
observable in the loop's return value and are not modelled. -/
structure TrainerEnv where
  repoMeta : String → Option VersionMetadata
  trainResult : String → Bool

/-- `check_feature_exists_in_repo` (incremental_trainer.py:116-137): true
iff the repo metadata file exists and records at least one version with
status `"completed"` — no age or staleness is consulted. -/
def check_feature_exists_in_repo (env : TrainerEnv) (f : String) : Bool :=
  match env.repoMeta f with
  | none => false
  | some md => !(md.versions.filter fun e => e.status == "completed").isEmpty

/-- The `results` dict accumulated by the loop. -/
structure TrainResults where
  completed : List String := []
  skipped : List String := []
  failed : List String := []
deriving DecidableEq

/-- The loop's skip condition (incremental_trainer.py:243-247):
`skip_existing and not force_retrain and repo_dir` and the feature already
has a completed version committed in the repo. -/
def shouldSkipFeature (env : TrainerEnv)
    (skip_existing force_retrain repo_dir : Bool) (f : String) : Bool :=
  skip_existing && !force_retrain && repo_dir &&
    check_feature_exists_in_repo env f

/-- One iteration of the loop body (incremental_trainer.py:237-264): skip,
or train and record completed/failed; a failure never aborts the loop. -/
def processFeature (env : TrainerEnv)
    (skip_existing force_retrain repo_dir : Bool) (r : TrainResults)
    (f : String) : TrainResults :=
  if shouldSkipFeature env skip_existing force_retrain repo_dir f then
    { r with skipped := r.skipped ++ [f] }
  else if env.trainResult f then
    { r with completed := r.completed ++ [f] }
  else
    { r with failed := r.failed ++ [f] }

/-- `run_incremental_training` (incremental_trainer.py:194-288) restricted
to its queue-processing loop: fold the loop body over the feature queue in
order. -/
def run_incremental_training (env : TrainerEnv)
    (skip_existing force_retrain repo_dir : Bool) (features : List String) :
    TrainResults :=
  features.foldl (processFeature env skip_existing force_retrain repo_dir) {}

theorem processFeature_fold_mem (env : TrainerEnv) (se fr rd : Bool)
    (f : String) :
    ∀ (features : List String) (acc : TrainResults),
      let r := features.foldl (processFeature env se fr rd) acc
      (f ∈ r.skipped ↔ f ∈ acc.skipped ∨
        (f ∈ features ∧ shouldSkipFeature env se fr rd f = true)) ∧
      (f ∈ r.completed ↔ f ∈ acc.completed ∨
        (f ∈ features ∧ shouldSkipFeature env se fr rd f = false ∧
          env.trainResult f = true)) ∧
      (f ∈ r.failed ↔ f ∈ acc.failed ∨
        (f ∈ features ∧ shouldSkipFeature env se fr rd f = false ∧
          env.trainResult f = false)) := by
  intro features
  induction features with
  | nil => intro acc; simp
  | cons g t ih =>
    intro acc
    simp only [List.foldl_cons]
    have hstep := ih (processFeature env se fr rd acc g)
    refine ⟨?_, ?_, ?_⟩
    · rw [hstep.1]
      unfold processFeature
      by_cases hskip : shouldSkipFeature env se fr rd g = true
      · rw [if_pos hskip]
        by_cases hfg : f = g
        · subst hfg
          simp [hskip]
        · simp only [List.mem_append, List.mem_singleton, List.mem_cons,
              List.not_mem_nil, or_false]
          constructor
          · rintro ((h1 | h2) | h3)
            · exact Or.inl h1
            · exact absurd h2 hfg
            · exact Or.inr ⟨Or.inr h3.1, h3.2⟩
          · rintro (h1 | ⟨hg | ht, hsk⟩)
            · exact Or.inl (Or.inl h1)
            · exact absurd hg hfg
            · exact Or.inr ⟨ht, hsk⟩
      · rw [if_neg hskip]
        have hskipf : shouldSkipFeature env se fr rd g = false :=
          Bool.eq_false_iff.mpr hskip
        by_cases htrain : env.trainResult g = true
        · rw [if_pos htrain]
          simp only [List.mem_cons]
          constructor
          · rintro (h1 | h3)
            · exact Or.inl h1
            · exact Or.inr ⟨Or.inr h3.1, h3.2⟩
          · rintro (h1 | ⟨hg | ht, hsk⟩)
            · exact Or.inl h1
            · subst hg
              rw [hsk] at hskipf
              cases hskipf
            · exact Or.inr ⟨ht, hsk⟩
        · rw [if_neg htrain]
          simp only [List.mem_cons]
          constructor
          · rintro (h1 | h3)
            · exact Or.inl h1
            · exact Or.inr ⟨Or.inr h3.1, h3.2⟩
          · rintro (h1 | ⟨hg | ht, hsk⟩)
            · exact Or.inl h1
            · subst hg
              rw [hsk] at hskipf
              cases hskipf
            · exact Or.inr ⟨ht, hsk⟩
    · rw [hstep.2.1]
      unfold processFeature
      by_cases hskip : shouldSkipFeature env se fr rd g = true
      · rw [if_pos hskip]
        simp only [List.mem_cons]
        constructor
        · rintro (h1 | h3)
          · exact Or.inl h1
          · exact Or.inr ⟨Or.inr h3.1, h3.2⟩
        · rintro (h1 | ⟨hg | ht, hsk, htr⟩)
          · exact Or.inl h1
          · subst hg
            rw [hskip] at hsk
            cases hsk
          · exact Or.inr ⟨ht, hsk, htr⟩
      · rw [if_neg hskip]
        have hskipf : shouldSkipFeature env se fr rd g = false :=
          Bool.eq_false_iff.mpr hskip
        by_cases htrain : env.trainResult g = true
        · rw [if_pos htrain]
          by_cases hfg : f = g
          · subst hfg
            simp [hskipf, htrain]
          · simp only [List.mem_append, List.mem_singleton, List.mem_cons,
              List.not_mem_nil, or_false]
            constructor
            · rintro ((h1 | h2) | h3)
              · exact Or.inl h1
              · exact absurd h2 hfg
              · exact Or.inr ⟨Or.inr h3.1, h3.2⟩
            · rintro (h1 | ⟨hg | ht, hsk, htr⟩)
              · exact Or.inl (Or.inl h1)
              · exact absurd hg hfg
              · exact Or.inr ⟨ht, hsk, htr⟩
        · rw [if_neg htrain]
          simp only [List.mem_cons]
          constructor
          · rintro (h1 | h3)
            · exact Or.inl h1
            · exact Or.inr ⟨Or.inr h3.1, h3.2⟩
          · rintro (h1 | ⟨hg | ht, hsk, htr⟩)
            · exact Or.inl h1
            · subst hg
              rw [htr] at htrain
              exact absurd rfl htrain
            · exact Or.inr ⟨ht, hsk, htr⟩
    · rw [hstep.2.2]
      unfold processFeature
      by_cases hskip : shouldSkipFeature env se fr rd g = true
      · rw [if_pos hskip]
        simp only [List.mem_cons]
        constructor
        · rintro (h1 | h3)
          · exact Or.inl h1
          · exact Or.inr ⟨Or.inr h3.1, h3.2⟩
        · rintro (h1 | ⟨hg | ht, hsk, htr⟩)
          · exact Or.inl h1
          · subst hg
            rw [hskip] at hsk
            cases hsk
          · exact Or.inr ⟨ht, hsk, htr⟩
      · rw [if_neg hskip]
        have hskipf : shouldSkipFeature env se fr rd g = false :=
          Bool.eq_false_iff.mpr hskip
        by_cases htrain : env.trainResult g = true
        · rw [if_pos htrain]
          simp only [List.mem_cons]
          constructor
          · rintro (h1 | h3)
            · exact Or.inl h1
            · exact Or.inr ⟨Or.inr h3.1, h3.2⟩
          · rintro (h1 | ⟨hg | ht, hsk, htr⟩)
            · exact Or.inl h1
            · subst hg
              rw [htrain] at htr
              cases htr
            · exact Or.inr ⟨ht, hsk, htr⟩
        · rw [if_neg htrain]
          by_cases hfg : f = g
          · subst hfg
            have htrainf : env.trainResult f = false :=
              Bool.eq_false_iff.mpr htrain
            simp [hskipf, htrainf]
          · simp only [List.mem_append, List.mem_singleton, List.mem_cons,
              List.not_mem_nil, or_false]
            constructor
            · rintro ((h1 | h2) | h3)
              · exact Or.inl h1
              · exact absurd h2 hfg
              · exact Or.inr ⟨Or.inr h3.1, h3.2⟩
            · rintro (h1 | ⟨hg | ht, hsk, htr⟩)
              · exact Or.inl (Or.inl h1)
              · exact absurd hg hfg
              · exact Or.inr ⟨ht, hsk, htr⟩

theorem processFeature_fold_length (env : TrainerEnv) (se fr rd : Bool) :
    ∀ (features : List String) (acc : TrainResults),
      let r := features.foldl (processFeature env se fr rd) acc
      r.completed.length + r.skipped.length + r.failed.length =
        acc.completed.length + acc.skipped.length + acc.failed.length +
          features.length := by
  intro features
  induction features with
  | nil => intro acc; simp
  | cons g t ih =>
    intro acc
    simp only [List.foldl_cons, List.length_cons]
    rw [ih (processFeature env se fr rd acc g)]
    unfold processFeature
    by_cases hskip : shouldSkipFeature env se fr rd g = true
    · rw [if_pos hskip]
      simp
      omega
    · rw [if_neg hskip]
      by_cases htrain : env.trainResult g = true
      · rw [if_pos htrain]
        simp
        omega
      · rw [if_neg htrain]
        simp
        omega

/-! ### Claim C4 -/

/-- A ledger with one stale completed version (created day 0, observed day
1000, far past every threshold). -/
def c4Metadata : VersionMetadata :=
  ⟨[⟨1, some 0, none, "completed", none⟩], some 1⟩

/-- Trainer environment where the repo already records that completed
version. -/
def c4TrainerEnv : TrainerEnv :=
  { repoMeta := fun _ => some c4Metadata, trainResult := fun _ => true }

/-- Checker environment for the same feature: all files present, age 1000
days, hence needs_training (stale, not fresh). -/
def c4FeatureEnv : FeatureEnv :=
  { metadata := some c4Metadata
    nfBundleVersions := [1], ensembleVersions := [1]
    ensembleMtime := fun _ => 0, now := 1000 }

/-- C4 (as stated) is false on the code: the loop skips a unit as soon as a
*completed* version is committed in the repo, without consulting any
Staleness Verdict — here a unit whose verdict is stale (1000 days old,
needs_training) is nevertheless skipped, so "skips iff fresh and not
force-flagged" fails. -/
theorem C4_counterexample :
    (run_incremental_training c4TrainerEnv true false true ["VIX"]).skipped
      = ["VIX"] ∧
    (check_feature_model_status c4FeatureEnv "VIX" "daily").exists_ = true ∧
    (check_feature_model_status c4FeatureEnv "VIX" "daily").needs_training
      = true := by
  decide

/-- C4 (amended): the loop processes the queue in order and each queued unit
lands in exactly one of completed/skipped/failed (counts sum to the queue
length, so a failing unit never aborts the remaining queue).  A unit is
skipped iff `skip_existing` is on, `force_retrain` is off, a repo directory
is given, and the unit has a completed version committed in the repo
metadata — regardless of its age/staleness.  Otherwise it is trained and
recorded completed or failed according to the training outcome; on a
re-invocation, exactly the units whose completed metadata is visible are
skipped and the rest are processed again. -/
theorem C4_loop_semantics (env : TrainerEnv) (se fr rd : Bool)
    (features : List String) (f : String) :
    (f ∈ (run_incremental_training env se fr rd features).skipped ↔
      f ∈ features ∧ shouldSkipFeature env se fr rd f = true) ∧
    (f ∈ (run_incremental_training env se fr rd features).completed ↔
      f ∈ features ∧ shouldSkipFeature env se fr rd f = false ∧
        env.trainResult f = true) ∧
    (f ∈ (run_incremental_training env se fr rd features).failed ↔
      f ∈ features ∧ shouldSkipFeature env se fr rd f = false ∧
        env.trainResult f = false) ∧
    ((run_incremental_training env se fr rd features).completed.length +
      (run_incremental_training env se fr rd features).skipped.length +
      (run_incremental_training env se fr rd features).failed.length =
      features.length) := by
  have hmem := processFeature_fold_mem env se fr rd f features {}
  have hlen := processFeature_fold_length env se fr rd features {}
  simp only [TrainResults.mk] at hmem hlen
  refine ⟨?_, ?_, ?_, ?_⟩
  · rw [run_incremental_training, hmem.1]
    simp
  · rw [run_incremental_training, hmem.2.1]
    simp
  · rw [run_incremental_training, hmem.2.2]
    simp
  · rw [run_incremental_training, hlen]
    simp

/-- Witness for C4 (amended): a three-unit queue where unit 1 is already
committed (skipped), unit 2's training fails and unit 3 still trains —
nothing aborted, nothing duplicated. -/
theorem C4_loop_semantics_witness :
    (("u2" ∈ (run_incremental_training
        ⟨fun f => if f = "u1" then some c4Metadata else none,
         fun f => f ≠ "u2"⟩ true false true ["u1", "u2", "u3"]).failed) ↔
      ("u2" ∈ ["u1", "u2", "u3"] ∧
        shouldSkipFeature
          ⟨fun f => if f = "u1" then some c4Metadata else none,
           fun f => f ≠ "u2"⟩ true false true "u2" = false ∧
        (fun f : String => decide (f ≠ "u2")) "u2" = false)) ∧
    (run_incremental_training
      ⟨fun f => if f = "u1" then some c4Metadata else none,
       fun f => f ≠ "u2"⟩ true false true ["u1", "u2", "u3"]).skipped
      = ["u1"] ∧
    (run_incremental_training
      ⟨fun f => if f = "u1" then some c4Metadata else none,
       fun f => f ≠ "u2"⟩ true false true ["u1", "u2", "u3"]).failed
      = ["u2"] ∧
    (run_incremental_training
      ⟨fun f => if f = "u1" then some c4Metadata else none,
       fun f => f ≠ "u2"⟩ true false true ["u1", "u2", "u3"]).completed
      = ["u3"] := by
  refine ⟨?_, by decide, by decide, by decide⟩
  exact (C4_loop_semantics
    ⟨fun f => if f = "u1" then some c4Metadata else none,
     fun f => f ≠ "u2"⟩ true false true ["u1", "u2", "u3"] "u2").2.2.1

/-! ## Pipeline State, stage nodes and routers
(src/orchestrator/nodes.py, src/orchestrator/human_nodes.py,
src/orchestrator/graph.py) -/

/-- A per-stage status dict, e.g. `{"success": True, "elapsed_seconds": ...,
"timestamp": ...}` or `{"skipped": True}`; field defaults mirror the
`dict.get(key, default)` accesses in source. -/
structure StageStatus where
  success : Bool := false
  skipped : Bool := false
  error : Option String := none
  elapsed : Option Int := none
  timestamp : Option Int := none
deriving DecidableEq

/-- An element of the Pipeline State's error list:
`{stage, error, timestamp}`. -/
structure PipelineError where
  stage : String
  error : String
  timestamp : Int
deriving DecidableEq

/-- The Pipeline State dict (orchestrator/state.py) restricted to the fields
the nodes and routers below read or write.  Approval flags are `Option Bool`
because Python code reads them with different defaults
(`state.get(f, False)` in routers, `state.get(f, True)` in the abort node);
`abort_pipeline` is read with default `False` everywhere, so a plain `Bool`
suffices. -/
structure PipelineState where
  skip_fetch : Bool := false
  skip_engineer : Bool := false
  skip_select : Bool := false
  skip_cluster : Bool := false
  skip_classify : Bool := false
  skip_forecast : Bool := false
  fetch_status : Option StageStatus := none
  engineer_status : Option StageStatus := none
  select_status : Option StageStatus := none
  cluster_status : Option StageStatus := none
  classify_status : Option StageStatus := none
  forecast_status : Option StageStatus := none
  fetch_approved : Option Bool := none
  engineer_approved : Option Bool := none
  select_approved : Option Bool := none
  cluster_approved : Option Bool := none
  classify_approved : Option Bool := none
  forecast_approved : Option Bool := none
  abort_pipeline : Bool := false
  errors : List PipelineError := []
  retry_stage : Option String := none
  regime_override : Option Nat := none
  feature_exclusions : Option (List String) := none
  manual_feature_additions : Option (List String) := none
  manual_feature_removals : Option (List String) := none
  cleaned_data_path : Option String := none
deriving DecidableEq

/-- `state.get(f"{stage}_status", {}).get("success", False)`. -/
def statusSuccess (st : Option StageStatus) : Bool :=
  match st with
  | none => false
  | some s => s.success

/-- The responses Python treats as approval after
`input().strip().lower()`: `["y", "yes", ""]`. -/
def yesResponses : List String := ["y", "yes", ""]

/-- `fetch_node` (nodes.py:137-200), parametrised by the outcome of the
wrapped collaborator `run_fetcher` (`Except.error e` models the Python
exception path) and the wall clock.  The exception is consumed here: the
node always returns an updated state, appending exactly one
`{stage, error, timestamp}` entry and a `success=False` status on failure,
never re-raising. -/
def fetch_node (s : PipelineState) (work : Except String Unit)
    (now elapsed : Int) : PipelineState :=
  if s.skip_fetch then
    { s with fetch_status := some { skipped := true } }
  else
    match work with
    | .ok _ =>
      let okStatus : StageStatus :=
        { success := true, elapsed := some elapsed, timestamp := some now }
      { s with
        fetch_status := some okStatus
        cleaned_data_path := some "outputs/fetched/cleaned" }
    | .error e =>
      let errEntry : PipelineError :=
        { stage := "fetch", error := e, timestamp := now }
      let errStatus : StageStatus :=
        { success := false, error := some e, elapsed := some elapsed }
      { s with
        errors := s.errors ++ [errEntry]
        fetch_status := some errStatus }

/-! ### Human checkpoint nodes (human_nodes.py), parametrised by the
normalised operator responses read from `input()`. -/

/-- `review_fetch_node` (human_nodes.py:44-85). -/
def review_fetch_node (s : PipelineState) (response : String) :
    PipelineState :=
  if s.skip_fetch || !(statusSuccess s.fetch_status) then
    { s with fetch_approved := some true }
  else if yesResponses.contains response then
    { s with fetch_approved := some true }
  else if response = "review" then
    { s with fetch_approved := some true }
  else
    { s with fetch_approved := some false, abort_pipeline := true }

/-- `review_engineer_node` (human_nodes.py:91-137); `exclusions` is the
second `input()` read in the "exclude" branch. -/
def review_engineer_node (s : PipelineState) (response exclusions : String) :
    PipelineState :=
  if s.skip_engineer || !(statusSuccess s.engineer_status) then
    { s with engineer_approved := some true }
  else if yesResponses.contains response then
    { s with engineer_approved := some true }
  else if response = "exclude" then
    let excls := some ((exclusions.splitOn ",").map String.trim)
    let s' :=
      if exclusions ≠ "" then { s with feature_exclusions := excls } else s
    { s' with engineer_approved := some true }
  else
    { s with engineer_approved := some false, abort_pipeline := true }

/-- `review_select_node` (human_nodes.py:143-202); `additions`/`removals`
are the extra `input()` reads in the "modify" branch. -/
def review_select_node (s : PipelineState) (response additions removals : String) :
    PipelineState :=
  if s.skip_select || !(statusSuccess s.select_status) then
    { s with select_approved := some true }
  else if yesResponses.contains response then
    { s with select_approved := some true }
  else if response = "modify" then
    let adds := some ((additions.splitOn ",").map String.trim)
    let rems := some ((removals.splitOn ",").map String.trim)
    let s1 :=
      if additions ≠ "" then { s with manual_feature_additions := adds } else s
    let s2 :=
      if removals ≠ "" then { s1 with manual_feature_removals := rems } else s1
    { s2 with select_approved := some true }
  else
    { s with select_approved := some false, abort_pipeline := true }

/-- Python `str.isdigit`: nonempty and all digits. -/
def isDigitStr (n : String) : Bool :=
  !n.isEmpty && n.all Char.isDigit

/-- `review_cluster_node` (human_nodes.py:208-261); `nRegimes` is the extra
`input()` read in the "retune" branch. -/
def review_cluster_node (s : PipelineState) (response nRegimes : String) :
    PipelineState :=
  if s.skip_cluster || !(statusSuccess s.cluster_status) then
    { s with cluster_approved := some true }
  else if yesResponses.contains response then
    { s with cluster_approved := some true }
  else if response = "retune" then
    let n := some (nRegimes.toNat?.getD 0)
    let s' :=
      if nRegimes ≠ "" && isDigitStr nRegimes then
        { s with regime_override := n, retry_stage := some "cluster" }
      else s
    { s' with cluster_approved := some true }
  else
    { s with cluster_approved := some false, abort_pipeline := true }

/-- `review_classify_node` (human_nodes.py:267-315). -/
def review_classify_node (s : PipelineState) (response : String) :
    PipelineState :=
  if s.skip_classify || !(statusSuccess s.classify_status) then
    { s with classify_approved := some true }
  else if yesResponses.contains response then
    { s with classify_approved := some true }
  else
    { s with classify_approved := some false, abort_pipeline := true }

/-- `review_forecast_node` (human_nodes.py:321-359).  Note: unlike every
other checkpoint, the reject branch (lines 355-358) does NOT set
`abort_pipeline`. -/
def review_forecast_node (s : PipelineState) (response : String) :
    PipelineState :=
  if s.skip_forecast || !(statusSuccess s.forecast_status) then
    { s with forecast_approved := some true }
  else if yesResponses.contains response then
    { s with forecast_approved := some true }
  else
    { s with forecast_approved := some false }

/-! ### Conditional routers (graph.py:46-171), returning edge labels. -/

/-- `should_continue_after_fetch` (graph.py:46-52). -/
def should_continue_after_fetch (s : PipelineState) : String :=
  if s.abort_pipeline then "abort"
  else if !(statusSuccess s.fetch_status) && !s.skip_fetch then "abort"
  else "review_fetch"

/-- `should_continue_after_fetch_review` (graph.py:55-59). -/
def should_continue_after_fetch_review (s : PipelineState) : String :=
  if s.abort_pipeline || !(s.fetch_approved.getD false) then "abort"
  else "engineer"

/-- `should_continue_after_engineer_review` (graph.py:71-75). -/
def should_continue_after_engineer_review (s : PipelineState) : String :=
  if s.abort_pipeline || !(s.engineer_approved.getD false) then "abort"
  else "select"

/-- `should_continue_after_select_review` (graph.py:87-91). -/
def should_continue_after_select_review (s : PipelineState) : String :=
  if s.abort_pipeline || !(s.select_approved.getD false) then "abort"
  else "parallel_agents"

/-- `should_continue_after_cluster_review` (graph.py:125-139); this router
also mutates the state (clearing `retry_stage`), so it returns the label
together with the updated state. -/
def should_continue_after_cluster_review (s : PipelineState) :
    String × PipelineState :=
  if s.abort_pipeline || !(s.cluster_approved.getD false) then ("abort", s)
  else if s.retry_stage = some "cluster" then
    ("cluster", { s with retry_stage := none })
  else if !s.skip_classify then ("classify", s)
  else ("end", s)

/-- `should_continue_after_classify_review` (graph.py:151-155). -/
def should_continue_after_classify_review (s : PipelineState) : String :=
  if s.abort_pipeline || !(s.classify_approved.getD false) then "abort"
  else "end"

/-- `should_continue_after_forecast_review` (graph.py:167-171). -/
def should_continue_after_forecast_review (s : PipelineState) : String :=
  if s.abort_pipeline || !(s.forecast_approved.getD false) then "abort"
  else "end"

/-! ### Claim C8 -/

/-- State in which the forecast stage just succeeded. -/
def c8State : PipelineState := { forecast_status := some { success := true } }

/-- C8 (as stated) is false on the code: rejecting at the forecast
checkpoint sets `forecast_approved=False` but, unlike the other five
checkpoints, does not set `abort_pipeline=True`
(human_nodes.py:355-358). -/
theorem C8_counterexample :
    (review_forecast_node c8State "n").forecast_approved = some false ∧
    (review_forecast_node c8State "n").abort_pipeline = false := by
  decide

/-- C8 (amended): at each of the six human checkpoints, when the reviewed
stage ran and succeeded, a reject response sets `{stage}_approved = false`;
the fetch/engineer/select/cluster/classify checkpoints additionally set
`abort_pipeline = true`, while the forecast checkpoint leaves
`abort_pipeline` unchanged; in every case the graph's review router then
routes the run to `abort` (for forecast via the not-approved condition). -/
theorem C8_checkpoint_reject (s : PipelineState) (r excl add rem nreg : String)
    (hr : yesResponses.contains r = false) :
    (s.skip_fetch = false → statusSuccess s.fetch_status = true →
      r ≠ "review" →
      (review_fetch_node s r).fetch_approved = some false ∧
      (review_fetch_node s r).abort_pipeline = true ∧
      should_continue_after_fetch_review (review_fetch_node s r) = "abort") ∧
    (s.skip_engineer = false → statusSuccess s.engineer_status = true →
      r ≠ "exclude" →
      (review_engineer_node s r excl).engineer_approved = some false ∧
      (review_engineer_node s r excl).abort_pipeline = true ∧
      should_continue_after_engineer_review (review_engineer_node s r excl)
        = "abort") ∧
    (s.skip_select = false → statusSuccess s.select_status = true →
      r ≠ "modify" →
      (review_select_node s r add rem).select_approved = some false ∧
      (review_select_node s r add rem).abort_pipeline = true ∧
      should_continue_after_select_review (review_select_node s r add rem)
        = "abort") ∧
    (s.skip_cluster = false → statusSuccess s.cluster_status = true →
      r ≠ "retune" →
      (review_cluster_node s r nreg).cluster_approved = some false ∧
      (review_cluster_node s r nreg).abort_pipeline = true ∧
      (should_continue_after_cluster_review (review_cluster_node s r nreg)).1
        = "abort") ∧
    (s.skip_classify = false → statusSuccess s.classify_status = true →
      (review_classify_node s r).classify_approved = some false ∧
      (review_classify_node s r).abort_pipeline = true ∧
      should_continue_after_classify_review (review_classify_node s r)
        = "abort") ∧
    (s.skip_forecast = false → statusSuccess s.forecast_status = true →
      (review_forecast_node s r).forecast_approved = some false ∧
      (review_forecast_node s r).abort_pipeline = s.abort_pipeline ∧
      should_continue_after_forecast_review (review_forecast_node s r)
        = "abort") := by
  have hr' : r ∉ yesResponses := by simpa using hr
  refine ⟨?_, ?_, ?_, ?_, ?_, ?_⟩
  · intro hskip hsucc hrev
    simp [review_fetch_node, should_continue_after_fetch_review,
      hskip, hsucc, hr', hrev]
  · intro hskip hsucc hrev
    simp [review_engineer_node, should_continue_after_engineer_review,
      hskip, hsucc, hr', hrev]
  · intro hskip hsucc hrev
    simp [review_select_node, should_continue_after_select_review,
      hskip, hsucc, hr', hrev]
  · intro hskip hsucc hrev
    simp [review_cluster_node, should_continue_after_cluster_review,
      hskip, hsucc, hr', hrev]
  · intro hskip hsucc
    simp [review_classify_node, should_continue_after_classify_review,
      hskip, hsucc, hr']
  · intro hskip hsucc
    simp [review_forecast_node, should_continue_after_forecast_review,
      hskip, hsucc, hr']

/-- State in which all six stages just succeeded. -/
def c8AllSuccess : PipelineState :=
  { fetch_status := some { success := true }
    engineer_status := some { success := true }
    select_status := some { success := true }
    cluster_status := some { success := true }
    classify_status := some { success := true }
    forecast_status := some { success := true } }

/-- Witness for C8 (amended): rejection with response "n" at each
checkpoint of a fully-succeeded run. -/
theorem C8_checkpoint_reject_witness :
    ((review_fetch_node c8AllSuccess "n").fetch_approved = some false ∧
      (review_fetch_node c8AllSuccess "n").abort_pipeline = true ∧
      should_continue_after_fetch_review (review_fetch_node c8AllSuccess "n")
        = "abort") ∧
    ((review_forecast_node c8AllSuccess "n").forecast_approved = some false ∧
      (review_forecast_node c8AllSuccess "n").abort_pipeline =
        c8AllSuccess.abort_pipeline ∧
      should_continue_after_forecast_review
        (review_forecast_node c8AllSuccess "n") = "abort") := by
  have h := C8_checkpoint_reject c8AllSuccess "n" "" "" "" "" (by decide)
  exact ⟨h.1 rfl rfl (by decide), h.2.2.2.2.2 rfl rfl⟩

/-! ### Claim C9 -/

/-- C9: when the wrapped fetch work raises, the node appends exactly one
`{stage, error, timestamp}` entry to the error list, sets the stage status
to `success=false`, and (being a total function) does not re-raise; the
router after the stage then routes to `abort` — in particular never back to
`fetch`, so the router performs no automatic retry. -/
theorem C9_stage_failure (s : PipelineState) (e : String) (now elapsed : Int)
    (hskip : s.skip_fetch = false) :
    (fetch_node s (.error e) now elapsed).errors =
      s.errors ++ [{ stage := "fetch", error := e, timestamp := now }] ∧
    (fetch_node s (.error e) now elapsed).errors.length =
      s.errors.length + 1 ∧
    statusSuccess (fetch_node s (.error e) now elapsed).fetch_status
      = false ∧
    should_continue_after_fetch (fetch_node s (.error e) now elapsed)
      = "abort" := by
  refine ⟨?_, ?_, ?_, ?_⟩
  · simp [fetch_node, hskip]
  · simp [fetch_node, hskip]
  · simp [fetch_node, hskip, statusSuccess]
  · by_cases habort : s.abort_pipeline
    · simp [fetch_node, should_continue_after_fetch, hskip, habort,
        statusSuccess]
    · simp [fetch_node, should_continue_after_fetch, hskip, habort,
        statusSuccess]

/-- Witness for C9: a failing fetch on a default-initialised state. -/
theorem C9_stage_failure_witness :
    (fetch_node {} (.error "boom") 7 3).errors =
      [{ stage := "fetch", error := "boom", timestamp := 7 }] ∧
    should_continue_after_fetch (fetch_node {} (.error "boom") 7 3)
      = "abort" := by
  have h := C9_stage_failure {} "boom" 7 3 rfl
  exact ⟨by simpa using h.1, h.2.2.2⟩

/-! ## Driver exit code (src/run_pipeline.py, main, lines 282-307) -/

/-- How the driver's `try` block around the workflow run ends: the graph
invocation returned a final state, the operator interrupted, or an
exception escaped the workflow call. -/
inductive RunOutcome where
  | finished (result : PipelineState)
  | interrupted
  | crashed (msg : String)
deriving DecidableEq

/-- The exit code computed by `main` (run_pipeline.py:282-307): after a
normal return it prints any recorded errors and calls `sys.exit(0)`
unconditionally; `KeyboardInterrupt` and other exceptions exit 1. -/
def mainExitCode : RunOutcome → Nat
  | .finished _ => 0
  | .interrupted => 1
  | .crashed _ => 1

/-! ### Claim C7 -/

/-- Final state of a run that recorded one stage error and ended via the
abort route. -/
def c7ErrState : PipelineState :=
  { errors := [{ stage := "fetch", error := "boom", timestamp := 0 }]
    abort_pipeline := true }

/-- C7 (as stated) is false on the code: `main` prints the recorded errors
but still calls `sys.exit(0)` whenever the graph invocation returns,
so a run with a non-empty error list (and the abort route taken) exits 0. -/
theorem C7_counterexample :
    c7ErrState.errors ≠ [] ∧
    c7ErrState.abort_pipeline = true ∧
    mainExitCode (.finished c7ErrState) = 0 := by
  decide

/-- C7 (amended): the driver exits 0 exactly when the workflow invocation
returns normally — regardless of recorded errors or an abort-routed run —
and exits 1 exactly when a `KeyboardInterrupt` or another exception escapes
the workflow call. -/
theorem C7_exit_code (s : PipelineState) (msg : String) :
    mainExitCode (.finished s) = 0 ∧
    mainExitCode .interrupted = 1 ∧
    mainExitCode (.crashed msg) = 1 ∧
    (∀ o : RunOutcome, mainExitCode o = 0 ↔ ∃ s', o = .finished s') := by
  refine ⟨rfl, rfl, rfl, ?_⟩
  intro o
  cases o with
  | finished s' => simp [mainExitCode]
  | interrupted => simp [mainExitCode]
  | crashed m => simp [mainExitCode]

/-- Witness for C7 (amended): applied at the error-carrying final state. -/
theorem C7_exit_code_witness :
    mainExitCode (.finished c7ErrState) = 0 ∧
    mainExitCode .interrupted = 1 :=
  ⟨(C7_exit_code c7ErrState "x").1, (C7_exit_code c7ErrState "x").2.1⟩

end MarketPulse
